import Mathlib

/-!
Shallow embedding of the PassRusted credential vault (src/crypto.rs,
src/storage.rs, src/password_entry.rs, src/main.rs).

Bytes are modelled as `Nat`; machine strings as Lean `String` (Rust's
`str::len` is the UTF-8 byte length, modelled by `String.utf8ByteSize`).
The external crates (argon2, aes-gcm, the PHC-string codec, bincode's
handling of the entry map) are modelled as explicit function parameters,
with their documented contracts appearing as hypotheses of the theorems:
the repository's own code — salt handling, key extraction, nonce
prepend/split, the on-disk layout, the store state machine — is embedded
directly.
-/

abbrev Byte := Nat
abbrev Bytes := List Byte

/-- Argon2 password hashing with the crate's default parameters:
password and raw salt bytes to digest bytes (`Argon2::default()` has a
fixed 32-byte output). Abstract parameter for the external crate. -/
abbrev Argon2Fn := String → Bytes → Bytes

/-- AEAD encryption (aes-gcm crate): nonce, key, plaintext to
ciphertext-plus-tag. Abstract parameter for the external crate. -/
abbrev AeadEnc := Bytes → Bytes → Bytes → Bytes

/-- AEAD decryption (aes-gcm crate): nonce, key, ciphertext-plus-tag to
plaintext, `none` on tag failure. Abstract parameter for the external
crate. -/
abbrev AeadDec := Bytes → Bytes → Bytes → Option Bytes

/-- `SALT_LEN` from src/crypto.rs. -/
def SALT_LEN : Nat := 32

/-- `NONCE_LEN` from src/crypto.rs. -/
def NONCE_LEN : Nat := 12

/-- `KEY_LEN` from src/crypto.rs. -/
def KEY_LEN : Nat := 32

/-- The content of a PHC-format password-hash string as produced by
`argon2::PasswordHash`: the algorithm/parameter fields are fixed to the
default, so what varies is the salt and the digest. -/
structure PhcHash where
  salt : Bytes
  digest : Bytes
deriving DecidableEq, Repr

/-- The PHC record built inside `hash_master_password` (src/crypto.rs
lines 53-58): the digest is Argon2 of the password under the given salt,
and the very same salt is embedded in the hash string. -/
def hashRecordOf (argon2 : Argon2Fn) (password : String) (salt : Bytes) : PhcHash :=
  { salt := salt, digest := argon2 password salt }

/-- `hash_master_password` (src/crypto.rs lines 49-61). The fresh
32-byte random salt drawn from `OsRng` is passed as the `salt`
parameter; `render` models `PasswordHash::to_string` of the PHC codec.
Returns the rendered hash string and the raw salt. -/
def hash_master_password (argon2 : Argon2Fn) (render : PhcHash → String)
    (salt : Bytes) (password : String) : String × Bytes :=
  (render (hashRecordOf argon2 password salt), salt)

/-- `MasterKey::from_password` (src/crypto.rs lines 25-38): hash the
password with `Argon2::default()` under the salt and copy the first
`KEY_LEN` bytes of the digest into the key. The slice
`&hash_bytes.as_bytes()[..KEY_LEN]` panics when the digest is shorter
than `KEY_LEN`; the panic is modelled as `none`. -/
def MasterKey.from_password (argon2 : Argon2Fn) (password : String)
    (salt : Bytes) : Option Bytes :=
  let hash_bytes := argon2 password salt
  if KEY_LEN ≤ hash_bytes.length then some (hash_bytes.take KEY_LEN) else none

/-- `derive_key` (src/crypto.rs lines 45-47): an alias for
`MasterKey::from_password`. -/
def derive_key (argon2 : Argon2Fn) (password : String) (salt : Bytes) :
    Option Bytes :=
  MasterKey.from_password argon2 password salt

/-- `verify_master_password` (src/crypto.rs lines 63-73). `parse` models
`PasswordHash::new` (returns `none` on a malformed hash string);
`supported` models the conditions under which `Argon2::verify_password`
can process the parsed hash at all (unsupported algorithm/params raise
the non-`Password` error arm). With a parsed, supported hash the result
is the boolean comparison of the recomputed digest with the stored
digest. -/
def Crypto.verify_master_password (argon2 : Argon2Fn) (parse : String → Option PhcHash)
    (supported : PhcHash → Bool) (password hash_str : String) :
    Except String Bool :=
  match parse hash_str with
  | none => .error "Invalid hash format"
  | some ph =>
    if supported ph then
      .ok (decide (argon2 password ph.salt = ph.digest))
    else
      .error "Password verification error"

/-- `encrypt_data` (src/crypto.rs lines 75-88): the freshly generated
random nonce is passed as the `nonce` parameter; the result is
`nonce || ciphertext‖tag`. -/
def encrypt_data (enc : AeadEnc) (nonce : Bytes) (data key : Bytes) : Bytes :=
  nonce ++ enc nonce key data

/-- `decrypt_data` (src/crypto.rs lines 90-105): blobs shorter than
`NONCE_LEN` are rejected with a length error; otherwise the blob is
split at `NONCE_LEN` into nonce and ciphertext and AEAD-decrypted, a tag
failure surfacing as a generic decryption error. -/
def decrypt_data (dec : AeadDec) (encrypted_data key : Bytes) :
    Except String Bytes :=
  if encrypted_data.length < NONCE_LEN then
    .error "Invalid encrypted data length"
  else
    match dec (encrypted_data.take NONCE_LEN) key (encrypted_data.drop NONCE_LEN) with
    | some plaintext => .ok plaintext
    | none => .error "Decryption failed"

/-- `PasswordEntry` (src/password_entry.rs lines 9-20). The `Uuid` is
modelled as a `Nat` drawn freshly by the caller of `new`; `DateTime` as
a `Nat` timestamp. -/
structure PasswordEntry where
  id : Nat
  service : String
  username : String
  password : String
  created_at : Nat
  updated_at : Nat
deriving DecidableEq, Repr

/-- `PasswordEntry::new` (src/password_entry.rs lines 23-33): fresh id,
`created_at = updated_at = now`. The `Uuid::new_v4()` draw and
`Utc::now()` reading are passed in. -/
def PasswordEntry.new (freshId : Nat) (now : Nat)
    (service username password : String) : PasswordEntry :=
  { id := freshId, service := service, username := username,
    password := password, created_at := now, updated_at := now }

/-- `PasswordEntry::update_password` (src/password_entry.rs lines
35-39): zeroize and replace the password, stamp `updated_at` with the
current time; `id`, `service`, `username`, `created_at` untouched. -/
def PasswordEntry.update_password (e : PasswordEntry)
    (new_password : String) (now : Nat) : PasswordEntry :=
  { e with password := new_password, updated_at := now }

/-- The in-memory entry collection `HashMap<String, PasswordEntry>`,
modelled as an association list keyed by service name. -/
abbrev EntryMap := List (String × PasswordEntry)

/-- `HashMap::get`: the entry stored under a service name. -/
def lookupEntry : EntryMap → String → Option PasswordEntry
  | [], _ => none
  | (k, v) :: rest, service =>
    if k = service then some v else lookupEntry rest service

/-- `HashMap::get_mut` followed by an in-place mutation: rewrite the
value stored under the given service name, leaving other keys alone. -/
def updateEntry : EntryMap → String → (PasswordEntry → PasswordEntry) → EntryMap
  | [], _, _ => []
  | p :: rest, service, f =>
    (if p.1 = service then (p.1, f p.2) else p) :: updateEntry rest service f

/-- `DatabaseHeader` (src/storage.rs lines 14-19) as held in memory:
`master_hash` is the PHC-format hash string. -/
structure DatabaseHeader where
  version : Nat
  master_hash : String
  salt : Bytes
deriving DecidableEq, Repr

/-- `PasswordStore` (src/storage.rs lines 21-26). The `file_path`
string is irrelevant to the claims; what the path points at — whether
the vault file exists and what it holds — is modelled by `fileExists`
plus the file-content parameters of the operations. -/
structure PasswordStore where
  fileExists : Bool
  entries : EntryMap
  master_key : Option Bytes
  header : Option DatabaseHeader
deriving DecidableEq, Repr

/-- `PasswordStore::is_initialized` (src/storage.rs lines 44-46): the
vault file exists and its header was loaded. -/
def PasswordStore.is_initialized (s : PasswordStore) : Bool :=
  s.fileExists && s.header.isSome

/-- The spec's `Unlocked` state: header and key present (entries have
then been loaded by `verify_master_password`). -/
def PasswordStore.isUnlocked (s : PasswordStore) : Bool :=
  s.header.isSome && s.master_key.isSome

/-- `PasswordStore::initialize` (src/storage.rs lines 48-62): hash the
master password under a fresh random salt, build the version-1 header,
derive the symmetric key from the password and that same salt, persist.
The persist (`save_to_file`) writes header and encrypted empty map; its
in-memory effect is that the file now exists. -/
def PasswordStore.initialize (argon2 : Argon2Fn) (render : PhcHash → String)
    (salt : Bytes) (s : PasswordStore) (master_password : String) :
    Except String PasswordStore :=
  let hs := hash_master_password argon2 render salt master_password
  let header : DatabaseHeader :=
    { version := 1, master_hash := hs.1, salt := hs.2 }
  match derive_key argon2 master_password header.salt with
  | none => .error "Failed to extract hash"
  | some key =>
    .ok { s with fileExists := true, header := some header,
                 master_key := some key }

/-- `PasswordStore::get_entry` (src/storage.rs lines 84-86): a pure
lookup in the in-memory map, no state check, never an error. -/
def PasswordStore.get_entry (s : PasswordStore) (service : String) :
    Except String (Option PasswordEntry) :=
  .ok (lookupEntry s.entries service)

/-- `PasswordStore::list_entries` (src/storage.rs lines 88-90): the
values of the in-memory map, no state check, never an error. -/
def PasswordStore.list_entries (s : PasswordStore) :
    Except String (List PasswordEntry) :=
  .ok (s.entries.map Prod.snd)

/-- Little-endian decoding of a 4-byte `u32` (`u32::from_le_bytes`). -/
def u32leDecode (bs : Bytes) : Nat :=
  match bs with
  | [b0, b1, b2, b3] => b0 + 256 * b1 + 65536 * b2 + 16777216 * b3
  | _ => 0

/-- Little-endian encoding of a `u32` (`u32::to_le_bytes`). -/
def u32leEncode (n : Nat) : Bytes :=
  [n % 256, n / 256 % 256, n / 65536 % 256, n / 16777216 % 256]

/-- Little-endian encoding of a `u64`, as bincode uses for `String` and
`Vec<u8>` length prefixes. -/
def u64leEncode (n : Nat) : Bytes :=
  [n % 256, n / 256 % 256, n / 65536 % 256, n / 16777216 % 256,
   n / 4294967296 % 256, n / 1099511627776 % 256,
   n / 281474976710656 % 256, n / 72057594037927936 % 256]

/-- `DatabaseHeader` at the wire level, for `bincode` serialization:
`master_hash` as its UTF-8 bytes. -/
structure WireHeader where
  version : Nat
  master_hash : Bytes
  salt : Bytes
deriving DecidableEq, Repr

/-- `bincode::serialize` of a `DatabaseHeader`: `u32` little-endian
version, then `u64` length-prefixed hash-string bytes, then `u64`
length-prefixed salt bytes. -/
def serializeHeader (h : WireHeader) : Bytes :=
  u32leEncode h.version ++
  u64leEncode h.master_hash.length ++ h.master_hash ++
  u64leEncode h.salt.length ++ h.salt

/-- Reading a `u64` length prefix and that many following bytes, as
bincode deserializes a `String` or `Vec<u8>` field. -/
def readLenPrefixed (bs : Bytes) : Option (Bytes × Bytes) :=
  if 8 ≤ bs.length then
    let n := u32leDecode (bs.take 4) + 4294967296 * u32leDecode ((bs.drop 4).take 4)
    let rest := bs.drop 8
    if n ≤ rest.length then some (rest.take n, rest.drop n) else none
  else none

/-- `bincode::deserialize::<DatabaseHeader>`: version, hash-string
bytes, salt bytes, in order. -/
def deserializeHeader (bs : Bytes) : Option WireHeader :=
  if 4 ≤ bs.length then
    let version := u32leDecode (bs.take 4)
    match readLenPrefixed (bs.drop 4) with
    | none => none
    | some (mh, rest) =>
      match readLenPrefixed rest with
      | none => none
      | some (salt, _) => some { version := version, master_hash := mh, salt := salt }
  else none

/-- `PasswordStore::load_header` (src/storage.rs lines 106-119) on the
vault file's bytes: read the 4-byte little-endian header length, read
exactly that many header bytes, bincode-deserialize them. No field of
the resulting header — in particular not `version` — is inspected. -/
def load_header (file : Bytes) : Except String WireHeader :=
  if file.length < 4 then .error "failed to fill whole buffer"
  else
    let header_size := u32leDecode (file.take 4)
    let header_bytes := (file.drop 4).take header_size
    if header_bytes.length < header_size then
      .error "failed to fill whole buffer"
    else
      match deserializeHeader header_bytes with
      | some h => .ok h
      | none => .error "bincode deserialize error"

/-- `PasswordStore::load_entries` (src/storage.rs lines 121-155) given
the key: skip the 4-byte length prefix and the header it measures, read
the remainder; an empty remainder yields the empty map, otherwise the
remainder is decrypted and bincode-deserialized (`deser` models
`bincode::deserialize` of the entry map). -/
def load_entries (dec : AeadDec) (deser : Bytes → Option EntryMap)
    (file : Bytes) (key : Bytes) : Except String EntryMap :=
  if file.length < 4 then .error "failed to fill whole buffer"
  else
    let header_size := u32leDecode (file.take 4)
    let encrypted_data := (file.drop 4).drop header_size
    if encrypted_data.isEmpty then .ok []
    else
      match decrypt_data dec encrypted_data key with
      | .error e => .error e
      | .ok decrypted =>
        match deser decrypted with
        | some entries => .ok entries
        | none => .error "bincode deserialize error"

/-- `PasswordStore::verify_master_password` (src/storage.rs lines
64-75): requires a loaded header; verifies the password against the
stored hash string; on success derives the key from the stored salt,
installs it and loads the entries from the file; on a wrong password
returns `false` leaving the store untouched. -/
def PasswordStore.verify_master_password (argon2 : Argon2Fn)
    (parse : String → Option PhcHash) (supported : PhcHash → Bool)
    (dec : AeadDec) (deser : Bytes → Option EntryMap) (file : Bytes)
    (s : PasswordStore) (password : String) :
    Except String (Bool × PasswordStore) :=
  match s.header with
  | none => .error "Database not initialized"
  | some header =>
    match Crypto.verify_master_password argon2 parse supported password header.master_hash with
    | .error e => .error e
    | .ok false => .ok (false, s)
    | .ok true =>
      match derive_key argon2 password header.salt with
      | none => .error "Failed to extract hash"
      | some key =>
        match load_entries dec deser file key with
        | .error e => .error e
        | .ok entries =>
          .ok (true, { s with master_key := some key, entries := entries })

/-- `PasswordStore::update_password` (src/storage.rs lines 98-104): if
an entry exists for the service, update its password in place (stamping
`updated_at` with `now`) and persist; otherwise do nothing and return
success. -/
def PasswordStore.update_password (now : Nat) (s : PasswordStore)
    (service new_password : String) : Except String PasswordStore :=
  match lookupEntry s.entries service with
  | some _ =>
    .ok { s with entries :=
      updateEntry s.entries service (fun e => e.update_password new_password now) }
  | none => .ok s

/-- The outcome of the CLI's `initialize_database` (src/main.rs lines
44-66). `alreadyInitialized` is the early `return Ok(())` with a
message — a success, not an error; `mismatch` and `tooShort` are the
`bail!` error paths; `initialized` carries the store after
`PasswordStore::initialize`. -/
inductive InitOutcome where
  | alreadyInitialized
  | mismatch
  | tooShort
  | failed (e : String)
  | initialized (s : PasswordStore)
deriving DecidableEq, Repr

/-- Whether an `initialize_database` outcome is an error (`Err` of the
Rust `Result`). The already-initialized early return is `Ok`. -/
def InitOutcome.isError : InitOutcome → Bool
  | .alreadyInitialized => false
  | .mismatch => true
  | .tooShort => true
  | .failed _ => true
  | .initialized _ => false

/-- `initialize_database` (src/main.rs lines 44-66): if the store is
already initialized, print a notice and return success without touching
anything; else require the two prompted passwords to match and the
master password to be at least 8 bytes (`str::len` counts UTF-8 bytes),
then initialize the store. -/
def initialize_database (argon2 : Argon2Fn) (render : PhcHash → String)
    (salt : Bytes) (s : PasswordStore)
    (master_password confirm_password : String) : InitOutcome :=
  if s.is_initialized then .alreadyInitialized
  else if master_password ≠ confirm_password then .mismatch
  else if master_password.utf8ByteSize < 8 then .tooShort
  else
    match s.initialize argon2 render salt master_password with
    | .error e => .failed e
    | .ok s' => .initialized s'

/-- A concrete Argon2 stand-in with the default 32-byte output length
(the crate contract assumed of the abstract `Argon2Fn` parameter), used
to evaluate the embedded code on concrete inputs. It depends on both
password and salt, so distinct passwords yield distinct digests. -/
def cArgon2 : Argon2Fn := fun password salt =>
  List.replicate 31 0 ++
    [(password.utf8ByteSize + 37 * (password.toList.map Char.toNat).sum +
      salt.length) % 256]

/-- A concrete PHC renderer for evaluating the embedded code. -/
def cRender (ph : PhcHash) : String :=
  String.mk (ph.digest.map Char.ofNat)

/-- A store as produced by `PasswordStore::new` on a missing vault
file: nothing loaded, file absent. -/
def freshStore : PasswordStore :=
  { fileExists := false, entries := [], master_key := none, header := none }

/-- A store as produced by `PasswordStore::new` on an existing vault
file, before any authentication: header loaded, no key, no entries. -/
def lockedStore : PasswordStore :=
  { fileExists := true, entries := [], master_key := none,
    header := some
      { version := 1,
        master_hash := cRender (hashRecordOf cArgon2 "longpassword1" (List.replicate 32 0)),
        salt := List.replicate 32 0 } }

/-- A concrete wire header carrying an unsupported version number. -/
def versionTwoHeader : WireHeader :=
  { version := 2, master_hash := [97, 98, 99], salt := [1, 2, 3] }

/-- A concrete vault file whose header claims version 2: the 4-byte
little-endian length prefix followed by the serialized header. -/
def versionTwoFile : Bytes :=
  u32leEncode (serializeHeader versionTwoHeader).length ++
    serializeHeader versionTwoHeader

/-- A concrete credential entry for evaluating the entry lifecycle. -/
def githubEntry : PasswordEntry :=
  { id := 42, service := "github", username := "alice",
    password := "p@ss1", created_at := 100, updated_at := 100 }

/-- An unlocked store holding one entry, for evaluating the entry
lifecycle on concrete inputs. -/
def unlockedStore : PasswordStore :=
  { fileExists := true, entries := [("github", githubEntry)],
    master_key := some (List.replicate 32 0),
    header := some
      { version := 1, master_hash := "h",
        salt := List.replicate 32 0 } }

/-! Helper lemmas. -/

/-- Unfolding equation of `lookupEntry` on a cons cell. -/
theorem lookupEntry_cons (k : String) (v : PasswordEntry) (rest : EntryMap)
    (s : String) :
    lookupEntry ((k, v) :: rest) s =
      if k = s then some v else lookupEntry rest s := rfl

/-- Unfolding equation of `updateEntry` on a cons cell. -/
theorem updateEntry_cons (k : String) (v : PasswordEntry) (rest : EntryMap)
    (s : String) (f : PasswordEntry → PasswordEntry) :
    updateEntry ((k, v) :: rest) s f =
      (if k = s then (k, f v) else (k, v)) :: updateEntry rest s f := rfl

/-- Looking up the rewritten key after `updateEntry` yields the rewritten
value of the first binding of that key. -/
theorem lookupEntry_updateEntry_self (m : EntryMap) (service : String)
    (f : PasswordEntry → PasswordEntry) :
    lookupEntry (updateEntry m service f) service =
      (lookupEntry m service).map f := by
  induction m with
  | nil => rfl
  | cons p rest ih =>
    obtain ⟨k, v⟩ := p
    rw [updateEntry_cons]
    by_cases h : k = service
    · rw [if_pos h, lookupEntry_cons, lookupEntry_cons, if_pos h, if_pos h]
      rfl
    · rw [if_neg h, lookupEntry_cons, lookupEntry_cons, if_neg h, if_neg h]
      exact ih

/-- `updateEntry` leaves the bindings of every other key unchanged. -/
theorem lookupEntry_updateEntry_ne (m : EntryMap) (service other : String)
    (f : PasswordEntry → PasswordEntry) (h : other ≠ service) :
    lookupEntry (updateEntry m service f) other = lookupEntry m other := by
  induction m with
  | nil => rfl
  | cons p rest ih =>
    obtain ⟨k, v⟩ := p
    rw [updateEntry_cons]
    by_cases hk : k = service
    · have hko : ¬ k = other := fun hh => h (hh ▸ hk)
      rw [if_pos hk, lookupEntry_cons, lookupEntry_cons, if_neg hko, if_neg hko]
      exact ih
    · rw [if_neg hk, lookupEntry_cons, lookupEntry_cons]
      by_cases hko : k = other
      · rw [if_pos hko, if_pos hko]
      · rw [if_neg hko, if_neg hko]
        exact ih

/-- The 4-byte little-endian round trip is the identity below `2^32`. -/
theorem u32le_roundtrip (n : Nat) (h : n < 4294967296) :
    u32leDecode (u32leEncode n) = n := by
  simp only [u32leEncode, u32leDecode]
  omega

/-- `u32leEncode` always produces exactly 4 bytes. -/
theorem u32leEncode_length (n : Nat) : (u32leEncode n).length = 4 := rfl

/-- With the default parameters the Argon2 digest has exactly `KEY_LEN`
bytes, so the key extracted by `MasterKey::from_password` — the first
`KEY_LEN` bytes — is the entire digest that `hash_master_password`
embeds, under the same salt, into the unencrypted header's hash string:
the two derivations are not domain-separated. -/
theorem derive_key_eq_embedded_digest (argon2 : Argon2Fn) (password : String)
    (salt : Bytes) (h : (argon2 password salt).length = KEY_LEN) :
    derive_key argon2 password salt =
      some (hashRecordOf argon2 password salt).digest := by
  unfold derive_key MasterKey.from_password hashRecordOf
  rw [if_pos (le_of_eq h.symm)]
  simp [List.take_of_length_le (le_of_eq h)]

/-! Claim theorems. -/

/-- C1: refuted as stated — evaluating the code, the symmetric key
produced by `derive_key(password, salt)` IS the authentication digest
embedded in the hash string that `hash_master_password` produces for
that salt: both run `Argon2::default()` on the same password and salt,
the digest has exactly `KEY_LEN` bytes, and the key is its first
`KEY_LEN` bytes. The unencrypted header therefore stores the vault's
encryption key. Shown here at a concrete password and salt. -/
theorem derive_key_is_header_digest :
    derive_key cArgon2 "longpassword1" (List.replicate 32 0) =
      some (hashRecordOf cArgon2 "longpassword1" (List.replicate 32 0)).digest ∧
    (hash_master_password cArgon2 cRender (List.replicate 32 0) "longpassword1").1 =
      cRender (hashRecordOf cArgon2 "longpassword1" (List.replicate 32 0)) := by
  constructor
  · decide
  · rfl

/-- C2 counterexample: `initialize_database` on an already-initialized
store does not fail — it returns the `Ok(())` early-return outcome,
which is not an error. -/
theorem initialize_already_initialized_is_ok :
    initialize_database cArgon2 cRender (List.replicate 32 1) lockedStore
        "longpassword1" "longpassword1" = .alreadyInitialized ∧
    InitOutcome.isError .alreadyInitialized = false := by
  constructor
  · rfl
  · rfl

/-- C2 (amended): on an already-initialized store `initialize_database`
returns success without initializing (no overwrite); on a fresh store
with matching prompts it fails when the password has fewer than 8
bytes and proceeds to initialize when it has at least 8 — so length 7
is rejected and length 8 accepted. -/
theorem initialize_database_spec (argon2 : Argon2Fn) (render : PhcHash → String)
    (salt : Bytes) (s : PasswordStore) (p c : String) :
    (s.is_initialized = true →
      initialize_database argon2 render salt s p c = .alreadyInitialized ∧
      InitOutcome.isError (initialize_database argon2 render salt s p c) = false) ∧
    (s.is_initialized = false → p = c → p.utf8ByteSize < 8 →
      initialize_database argon2 render salt s p c = .tooShort ∧
      InitOutcome.isError (initialize_database argon2 render salt s p c) = true) ∧
    (s.is_initialized = false → p = c → 8 ≤ p.utf8ByteSize →
      (argon2 p salt).length = KEY_LEN →
      initialize_database argon2 render salt s p c = .initialized
        { s with fileExists := true,
                 header := some
                   { version := 1,
                     master_hash := render (hashRecordOf argon2 p salt),
                     salt := salt },
                 master_key := some (argon2 p salt) }) := by
  refine ⟨?_, ?_, ?_⟩
  · intro h
    constructor <;> simp [initialize_database, InitOutcome.isError, h]
  · intro hi hpc hlen
    subst hpc
    constructor <;> simp [initialize_database, InitOutcome.isError, hi, hlen]
  · intro hi hpc hlen hdig
    subst hpc
    have hk : derive_key argon2 p salt = some (argon2 p salt) := by
      rw [derive_key_eq_embedded_digest argon2 p salt hdig]
      rfl
    simp [initialize_database, PasswordStore.initialize, hash_master_password,
      hashRecordOf, hi, Nat.not_lt.mpr hlen, hk]

/-- C2 witness: the boundary cases at a concrete fresh store — an
8-byte password initializes, a 7-byte one is rejected as too short. -/
theorem initialize_database_spec_witness :
    initialize_database cArgon2 cRender (List.replicate 32 0) freshStore
        "abcdefgh" "abcdefgh" = .initialized
      { freshStore with
          fileExists := true,
          header := some
            { version := 1,
              master_hash :=
                cRender (hashRecordOf cArgon2 "abcdefgh" (List.replicate 32 0)),
              salt := List.replicate 32 0 },
          master_key := some (cArgon2 "abcdefgh" (List.replicate 32 0)) } ∧
    initialize_database cArgon2 cRender (List.replicate 32 0) freshStore
        "abcdefg" "abcdefg" = .tooShort :=
  ⟨(initialize_database_spec cArgon2 cRender (List.replicate 32 0) freshStore
      "abcdefgh" "abcdefgh").2.2 (by decide) rfl (by decide) (by decide),
   ((initialize_database_spec cArgon2 cRender (List.replicate 32 0) freshStore
      "abcdefg" "abcdefg").2.1 (by decide) rfl (by decide)).1⟩

/-- C3: refuted as stated — `load_header` never inspects the version
field: a serialized header claiming version 2 is deserialized and
returned as a success, with no fast failure, and the caller goes on to
interpret the rest of the file. -/
theorem load_header_accepts_version_two :
    load_header versionTwoFile = .ok versionTwoHeader ∧
    versionTwoHeader.version ≠ 1 := by
  constructor
  · rfl
  · decide

/-- C4 counterexample: on a store that is not `Unlocked` (header
loaded, but no key installed and no entries resident) `get_entry` and
`list_entries` succeed with normal results — `Ok(None)` and an `Ok`
empty list — instead of refusing. -/
theorem get_list_succeed_on_locked_store :
    lockedStore.isUnlocked = false ∧
    lockedStore.get_entry "github" = .ok none ∧
    lockedStore.list_entries = .ok [] :=
  ⟨rfl, rfl, rfl⟩

/-- C4 (amended): `get_entry` and `list_entries` perform no state
check: their results depend only on the in-memory entries map — two
stores with the same entries answer identically whatever their lock
state — and they never return an error. The `Unlocked` requirement is
enforced only by the CLI caller, which authenticates first. -/
theorem get_list_ignore_lock_state (s t : PasswordStore) (service : String)
    (h : s.entries = t.entries) :
    s.get_entry service = t.get_entry service ∧
    s.list_entries = t.list_entries ∧
    (∀ e, s.get_entry service ≠ .error e) ∧
    (∀ e, s.list_entries ≠ .error e) := by
  refine ⟨?_, ?_, ?_, ?_⟩
  · unfold PasswordStore.get_entry
    rw [h]
  · unfold PasswordStore.list_entries
    rw [h]
  · intro e hc
    exact Except.noConfusion hc
  · intro e hc
    exact Except.noConfusion hc

/-- C4 witness: the amended statement at a locked and a fresh store
sharing the empty entries map. -/
theorem get_list_ignore_lock_state_witness :
    lockedStore.get_entry "github" = freshStore.get_entry "github" ∧
    lockedStore.get_entry "github" ≠ .error "no" :=
  ⟨(get_list_ignore_lock_state lockedStore freshStore "github" rfl).1,
   (get_list_ignore_lock_state lockedStore freshStore "github" rfl).2.2.1 "no"⟩

/-- C5: for every payload, key and 12-byte nonce, provided the AEAD
cipher satisfies its round-trip contract, decrypting the blob produced
by `encrypt_data` (nonce prepended to ciphertext) under the same key
recovers exactly the payload. -/
theorem decrypt_encrypt_roundtrip (enc : AeadEnc) (dec : AeadDec)
    (nonce data key : Bytes) (hn : nonce.length = NONCE_LEN)
    (hrt : dec nonce key (enc nonce key data) = some data) :
    decrypt_data dec (encrypt_data enc nonce data key) key = .ok data := by
  unfold decrypt_data encrypt_data
  have hlen : ¬ (nonce ++ enc nonce key data).length < NONCE_LEN := by
    rw [List.length_append, hn]
    omega
  rw [if_neg hlen, List.take_left' hn, List.drop_left' hn, hrt]

/-- C5 witness: the round trip at a concrete payload under a concrete
cipher satisfying the contract. -/
theorem decrypt_encrypt_roundtrip_witness :
    decrypt_data (fun _ _ c => some c)
      (encrypt_data (fun _ _ d => d) (List.replicate 12 0) [1, 2, 3]
        (List.replicate 32 0))
      (List.replicate 32 0) = .ok [1, 2, 3] :=
  decrypt_encrypt_roundtrip (fun _ _ d => d) (fun _ _ c => some c)
    (List.replicate 12 0) [1, 2, 3] (List.replicate 32 0) (by decide) rfl

/-- C6: authenticating with a wrong master password (parsed, supported
stored hash whose digest does not match the recomputed one) returns
`Ok(false)` — not an error — and returns the store exactly as it was:
no key installed, no entries loaded. -/
theorem verify_wrong_password_keeps_state (argon2 : Argon2Fn)
    (parse : String → Option PhcHash) (supported : PhcHash → Bool)
    (dec : AeadDec) (deser : Bytes → Option EntryMap) (file : Bytes)
    (s : PasswordStore) (password : String) (header : DatabaseHeader)
    (ph : PhcHash) (hh : s.header = some header)
    (hp : parse header.master_hash = some ph) (hs : supported ph = true)
    (hw : argon2 password ph.salt ≠ ph.digest) :
    PasswordStore.verify_master_password argon2 parse supported dec deser
      file s password = .ok (false, s) := by
  simp only [PasswordStore.verify_master_password, hh,
    Crypto.verify_master_password, hp]
  rw [if_pos hs, decide_eq_false hw]

/-- C6 witness: a wrong concrete password against a locked store leaves
it untouched and yields `Ok(false)`. -/
theorem verify_wrong_password_keeps_state_witness :
    PasswordStore.verify_master_password cArgon2
      (fun _ => some (hashRecordOf cArgon2 "longpassword1" (List.replicate 32 0)))
      (fun _ => true) (fun _ _ _ => none) (fun _ => none) []
      lockedStore "wrongpass" = .ok (false, lockedStore) :=
  verify_wrong_password_keeps_state cArgon2
    (fun _ => some (hashRecordOf cArgon2 "longpassword1" (List.replicate 32 0)))
    (fun _ => true) (fun _ _ _ => none) (fun _ => none) [] lockedStore
    "wrongpass"
    { version := 1,
      master_hash := cRender (hashRecordOf cArgon2 "longpassword1" (List.replicate 32 0)),
      salt := List.replicate 32 0 }
    (hashRecordOf cArgon2 "longpassword1" (List.replicate 32 0))
    rfl rfl rfl (by decide)

/-- C7: `update_password` on a service present in the map replaces that
entry's password with the new one and stamps `updated_at` with the
current time — strictly later, the clock having advanced past the old
timestamp — while `id`, `created_at`, `service`, `username` and every
other entry are unchanged; on an absent service it is a successful
no-op, not an error. -/
theorem update_password_spec (now : Nat) (s : PasswordStore)
    (service new_password : String) (e : PasswordEntry)
    (he : lookupEntry s.entries service = some e) (ht : e.updated_at < now) :
    (∃ s', PasswordStore.update_password now s service new_password = .ok s' ∧
      (∃ e', lookupEntry s'.entries service = some e' ∧
        e'.password = new_password ∧ e'.updated_at = now ∧
        e.updated_at < e'.updated_at ∧ e'.created_at = e.created_at ∧
        e'.id = e.id ∧ e'.service = e.service ∧ e'.username = e.username) ∧
      (∀ other, other ≠ service →
        lookupEntry s'.entries other = lookupEntry s.entries other) ∧
      s'.header = s.header ∧ s'.master_key = s.master_key) ∧
    (∀ t : PasswordStore, lookupEntry t.entries service = none →
      PasswordStore.update_password now t service new_password = .ok t) := by
  constructor
  · have hupd : PasswordStore.update_password now s service new_password =
        .ok { s with
                entries := updateEntry s.entries service
                  (fun x => x.update_password new_password now) } := by
      unfold PasswordStore.update_password
      rw [he]
    refine ⟨_, hupd, ?_, ?_, rfl, rfl⟩
    · refine ⟨e.update_password new_password now, ?_, rfl, rfl, ht, rfl, rfl,
        rfl, rfl⟩
      show lookupEntry (updateEntry s.entries service
        (fun x => x.update_password new_password now)) service = _
      rw [lookupEntry_updateEntry_self, he]
      rfl
    · intro other hne
      exact lookupEntry_updateEntry_ne s.entries service other _ hne
  · intro t h0
    unfold PasswordStore.update_password
    rw [h0]

/-- C7 witness: updating the github entry of a concrete unlocked store
at a strictly later clock reading. -/
theorem update_password_spec_witness :
    ∃ s', PasswordStore.update_password 200 unlockedStore "github" "newpw" =
        .ok s' ∧
      (∃ e', lookupEntry s'.entries "github" = some e' ∧
        e'.password = "newpw" ∧ e'.updated_at = 200 ∧
        githubEntry.updated_at < e'.updated_at ∧
        e'.created_at = githubEntry.created_at ∧ e'.id = githubEntry.id ∧
        e'.service = githubEntry.service ∧
        e'.username = githubEntry.username) ∧
      (∀ other, other ≠ "github" →
        lookupEntry s'.entries other = lookupEntry unlockedStore.entries other) ∧
      s'.header = unlockedStore.header ∧
      s'.master_key = unlockedStore.master_key :=
  (update_password_spec 200 unlockedStore "github" "newpw" githubEntry
    (by decide) (by decide)).1

/-- C8: with a hash string that parses and is supported, the
crypto-level verifier returns `Ok` of the digest comparison — in
particular `Ok(false)`, not an error, when the password is wrong — and
never returns an error; errors can only arise from malformed hash
input. -/
theorem crypto_verify_spec (argon2 : Argon2Fn)
    (parse : String → Option PhcHash) (supported : PhcHash → Bool)
    (password hash_str : String) (ph : PhcHash)
    (hp : parse hash_str = some ph) (hs : supported ph = true) :
    Crypto.verify_master_password argon2 parse supported password hash_str =
      .ok (decide (argon2 password ph.salt = ph.digest)) ∧
    (∀ e, Crypto.verify_master_password argon2 parse supported password
      hash_str ≠ .error e) ∧
    (argon2 password ph.salt ≠ ph.digest →
      Crypto.verify_master_password argon2 parse supported password hash_str =
        .ok false) := by
  have h1 : Crypto.verify_master_password argon2 parse supported password
      hash_str = .ok (decide (argon2 password ph.salt = ph.digest)) := by
    simp only [Crypto.verify_master_password, hp]
    rw [if_pos hs]
  refine ⟨h1, ?_, ?_⟩
  · intro e hc
    rw [h1] at hc
    exact Except.noConfusion hc
  · intro hw
    rw [h1, decide_eq_false hw]

/-- C8 witness: a wrong concrete password against a well-formed stored
hash yields `Ok(false)`. -/
theorem crypto_verify_spec_witness :
    Crypto.verify_master_password cArgon2
      (fun _ => some (hashRecordOf cArgon2 "longpassword1" (List.replicate 32 0)))
      (fun _ => true) "wrongpass" "stored-hash" = .ok false :=
  (crypto_verify_spec cArgon2
    (fun _ => some (hashRecordOf cArgon2 "longpassword1" (List.replicate 32 0)))
    (fun _ => true) "wrongpass" "stored-hash"
    (hashRecordOf cArgon2 "longpassword1" (List.replicate 32 0))
    rfl rfl).2.2 (by decide)

/-- C9: a vault file whose content after the header is empty (a
freshly initialized vault) yields the empty entries map and succeeds;
and any blob shorter than the 12-byte nonce handed to `decrypt_data`
fails with the length error before decryption is attempted. -/
theorem load_entries_empty_and_short_blob (dec : AeadDec)
    (deser : Bytes → Option EntryMap) (key header_bytes : Bytes)
    (hlen : header_bytes.length < 4294967296) :
    load_entries dec deser
      (u32leEncode header_bytes.length ++ header_bytes) key = .ok [] ∧
    (∀ blob : Bytes, blob.length < NONCE_LEN →
      decrypt_data dec blob key = .error "Invalid encrypted data length") := by
  constructor
  · have h4 : (u32leEncode header_bytes.length).length = 4 := rfl
    have hnot : ¬ (u32leEncode header_bytes.length ++ header_bytes).length < 4 := by
      rw [List.length_append, h4]
      omega
    simp only [load_entries]
    rw [if_neg hnot, List.take_left' h4, List.drop_left' h4,
      u32le_roundtrip _ hlen, List.drop_length]
    rfl
  · intro blob hb
    unfold decrypt_data
    rw [if_pos hb]

/-- C9 witness: a concrete file holding only a length-prefixed header
loads as the empty map, and a concrete 3-byte blob is rejected with the
length error. -/
theorem load_entries_empty_and_short_blob_witness :
    load_entries (fun _ _ _ => none) (fun _ => none)
      (u32leEncode 2 ++ [7, 7]) (List.replicate 32 0) = .ok [] ∧
    decrypt_data (fun _ _ _ => none) [1, 2, 3] (List.replicate 32 0) =
      .error "Invalid encrypted data length" :=
  ⟨(load_entries_empty_and_short_blob (fun _ _ _ => none) (fun _ => none)
      (List.replicate 32 0) [7, 7] (by decide)).1,
   (load_entries_empty_and_short_blob (fun _ _ _ => none) (fun _ => none)
      (List.replicate 32 0) [7, 7] (by decide)).2 [1, 2, 3] (by decide)⟩

/-- C10: whenever the Argon2 digest has at least the default 32-byte
output length, the `[..KEY_LEN]` slice inside `MasterKey::from_password`
is in bounds — derivation succeeds instead of panicking — and the
resulting key has exactly `KEY_LEN = 32` bytes. -/
theorem from_password_key_length (argon2 : Argon2Fn) (password : String)
    (salt : Bytes) (hd : KEY_LEN ≤ (argon2 password salt).length) :
    ∃ k, MasterKey.from_password argon2 password salt = some k ∧
      k.length = KEY_LEN := by
  refine ⟨(argon2 password salt).take KEY_LEN, ?_, ?_⟩
  · simp only [MasterKey.from_password]
    rw [if_pos hd]
  · rw [List.length_take]
    exact Nat.min_eq_left hd

/-- C10 witness: key derivation at a concrete password and 32-byte salt
succeeds with a 32-byte key. -/
theorem from_password_key_length_witness :
    ∃ k, MasterKey.from_password cArgon2 "longpassword1"
        (List.replicate 32 0) = some k ∧ k.length = KEY_LEN :=
  from_password_key_length cArgon2 "longpassword1" (List.replicate 32 0)
    (by decide)
